import Mathlib

/-!
# asc-go: column projection and sort-order collection

A shallow embedding of the `ls` pipelines of `cmd/asg`, `cmd/ec2`,
`pkg/service/elasticache` and `pkg/service/ssm`.

* Go package-level variables become fields of a `Vars` structure that the
  hooks read and write (explicit state passing).
* `pflag.FlagSet.Visit` is an external collaborator; the hook only sees the
  names of the flags it is called back with, so `PreRun` takes that sequence.
* A `nil` pointer is `none`; a nil dereference or an out-of-range index is
  the `Failure.panic` result; an error returned by the fetch call is
  `Failure.fetch`.
* `table.Row` is `[]interface{}`: a cell is `some s` for a string and `none`
  for an untouched (`nil`) slot.
-/

set_option autoImplicit false

namespace AscGo

/-! ## The table writer (go-pretty), as far as the listings drive it -/

/-- A `table.Row`: a slice of interface values, here strings or `nil`. -/
abbrev Row := List (Option String)

/-- Sorting modes of `table.SortBy.Mode`. -/
inductive SortMode where
  | Asc
  | AscNumeric
  | Dsc
  | DscNumeric
  deriving DecidableEq, Repr

/-- One `table.SortBy` entry: the column name and the mode. -/
structure SortBy where
  Name : String
  Mode : SortMode
  deriving DecidableEq, Repr

/-- Header text formats of `text.Format`. -/
inductive Format where
  | FormatDefault
  | FormatLower
  | FormatTitle
  | FormatUpper
  deriving DecidableEq, Repr

/-- The part of `table.Style` that `setStyle` touches. -/
structure Style where
  DrawBorder : Bool
  SeparateColumns : Bool
  SeparateHeader : Bool
  Header : Format
  deriving DecidableEq, Repr

/-- Value of `table.StyleRounded` on the fields of `Style`. -/
def StyleRounded : Style :=
  { DrawBorder := true, SeparateColumns := true, SeparateHeader := true,
    Header := Format.FormatUpper }

/-- State of a `table.Writer`: what has been handed to the renderer. -/
structure Table where
  rowsHeader : List Row
  rows : List Row
  sortBy : List SortBy
  style : Style
  deriving DecidableEq, Repr

/-- Result of `table.NewWriter()`. -/
def NewWriter : Table :=
  { rowsHeader := [], rows := [], sortBy := [],
    style := { DrawBorder := true, SeparateColumns := true, SeparateHeader := true,
               Header := Format.FormatUpper } }

/-- Method `t.AppendHeader(row)`. -/
def Table.AppendHeader (t : Table) (row : Row) : Table :=
  { t with rowsHeader := t.rowsHeader ++ [row] }

/-- Method `t.AppendRow(row)`. -/
def Table.AppendRow (t : Table) (row : Row) : Table :=
  { t with rows := t.rows ++ [row] }

/-- Method `t.SortBy(sortBy)`. -/
def Table.SortBy (t : Table) (sortBy : List SortBy) : Table :=
  { t with sortBy := sortBy }

/-- Method `t.SetStyle(style)`. -/
def Table.SetStyle (t : Table) (style : Style) : Table :=
  { t with style := style }

/-- Ways a listing can end without a table. -/
inductive Failure where
  | fetch (msg : String)
  | panic (msg : String)
  deriving DecidableEq, Repr

/-! ## cmd/asg -/

namespace asg

/-- Package-level variables of `cmd/asg`. -/
structure Vars where
  sortOrder : List String
  list : Bool
  showARNs : Bool
  selectedColumns : List String
  deriving DecidableEq, Repr

/-- Callback handed to `Flags().Visit` in the `ls` hook: the `switch f.Name`. -/
def visitFlag (sortOrder : List String) (name : String) : List String :=
  match name with
  | "sort-name" => sortOrder ++ ["Name"]
  | "sort-instances" => sortOrder ++ ["Instances"]
  | "sort-desired-capacity" => sortOrder ++ ["Desired Capacity"]
  | "sort-min-capacity" => sortOrder ++ ["Min Capacity"]
  | "sort-max-capacity" => sortOrder ++ ["Max Capacity"]
  | _ => sortOrder

/-- Hook `lsCmd.PreRun` of `NewASGCmd`; `visited` are the names of the flags
`Visit` calls back with, in that order. -/
def PreRun (v : Vars) (visited : List String) : Vars :=
  -- Clear any existing sort order
  let sortOrder : List String := []
  -- Set default columns
  let selectedColumns : List String :=
    ["name", "instances", "desired_capacity", "min_capacity", "max_capacity"]
  let selectedColumns :=
    if v.showARNs then selectedColumns ++ ["arn"] else selectedColumns
  let sortOrder := visited.foldl visitFlag sortOrder
  { v with sortOrder := sortOrder, selectedColumns := selectedColumns }

/-- Title table of the asg sort flags as the specification lists it. -/
def specSortTitle (name : String) : Option String :=
  if name = "sort-name" then some "Name"
  else if name = "sort-instances" then some "Instances"
  else if name = "sort-desired-capacity" then some "Desired Capacity"
  else if name = "sort-min-capacity" then some "Min Capacity"
  else if name = "sort-max-capacity" then some "Max Capacity"
  else none

end asg

/-! ## cmd/ec2 -/

namespace ec2

/-- Package-level variables of `cmd/ec2`. -/
structure Vars where
  sortOrder : List String
  list : Bool
  showLaunchTime : Bool
  selectedColumns : List String
  deriving DecidableEq, Repr

/-- Callback handed to `Flags().Visit` in the `ls` hook: the `switch f.Name`. -/
def visitFlag (sortOrder : List String) (name : String) : List String :=
  match name with
  | "sort-name" => sortOrder ++ ["Name"]
  | "sort-id" => sortOrder ++ ["Instance ID"]
  | "sort-type" => sortOrder ++ ["Type"]
  | "sort-launch-time" => sortOrder ++ ["Launch Time"]
  | _ => sortOrder

/-- Hook `lsCmd.PreRun` of `NewEC2Cmd`; `visited` are the names of the flags
`Visit` calls back with, in that order. -/
def PreRun (v : Vars) (visited : List String) : Vars :=
  -- Clear any existing sort order
  let sortOrder : List String := []
  -- Set default columns
  let selectedColumns : List String :=
    ["name", "instance_id", "state", "instance_type", "public_ip"]
  let selectedColumns :=
    if v.showLaunchTime then selectedColumns ++ ["launch_time"] else selectedColumns
  let sortOrder := visited.foldl visitFlag sortOrder
  { v with sortOrder := sortOrder, selectedColumns := selectedColumns }

/-- Title table of the ec2 sort flags as the specification lists it. -/
def specSortTitle (name : String) : Option String :=
  if name = "sort-name" then some "Name"
  else if name = "sort-id" then some "Instance ID"
  else if name = "sort-type" then some "Type"
  else if name = "sort-launch-time" then some "Launch Time"
  else none

end ec2

/-! ## pkg/service/elasticache -/

namespace elasticache

/-- AWS SDK `types.Endpoint` (pointer fields are options). -/
structure Endpoint where
  Address : Option String
  Port : Option Int
  deriving DecidableEq, Repr

/-- AWS SDK `types.CacheNode`, the field the listing reads. -/
structure CacheNode where
  Endpoint : Option Endpoint
  deriving DecidableEq, Repr

/-- AWS SDK `types.CacheCluster`, the fields the listing reads. -/
structure CacheCluster where
  CacheClusterId : Option String
  CacheClusterStatus : Option String
  EngineVersion : Option String
  Engine : Option String
  CacheNodeType : Option String
  CacheNodes : List CacheNode
  deriving DecidableEq, Repr

/-- Go `*p` on a pointer: a nil pointer panics. -/
def deref {α : Type} (p : Option α) : Except Failure α :=
  match p with
  | some a => .ok a
  | none => .error (Failure.panic "invalid memory address or nil pointer dereference")

/-- Go `xs[i]` on a slice: an index past the end panics. -/
def index {α : Type} (xs : List α) (i : Nat) : Except Failure α :=
  match xs[i]? with
  | some a => .ok a
  | none => .error (Failure.panic "index out of range")

/-- SDK helper `aws.ToString`: the pointee, or the empty string for nil. -/
def ToString (p : Option String) : String :=
  match p with
  | some s => s
  | none => ""

/-- Type `columnDef` of the elasticache service. -/
structure columnDef where
  id : String
  title : String
  getValue : CacheCluster → Except Failure String

/-- Registry `availableColumns`; `ResourceState` is `tableformat.ResourceState`,
whose source is outside the listing and is taken as a parameter. -/
def availableColumns (ResourceState : String → String) : List columnDef :=
  [ { id := "name", title := "Cache name",
      getValue := fun i => pure (ToString i.CacheClusterId) },
    { id := "status", title := "Status",
      getValue := fun i => do
        let s ← deref i.CacheClusterStatus
        pure (ResourceState s) },
    { id := "engine_version", title := "Engine version",
      getValue := fun i => do
        let ev ← deref i.EngineVersion
        let e ← deref i.Engine
        pure (ev ++ " (" ++ e ++ ")") },
    { id := "instance_type", title := "Configuration",
      getValue := fun i => do
        let s ← deref i.CacheNodeType
        pure s },
    { id := "endpoint", title := "Endpoint",
      getValue := fun i => do
        let node ← index i.CacheNodes 0
        let ep ← deref node.Endpoint
        let a ← deref ep.Address
        pure a } ]

/-- Inner loop `for _, col := range availableColumns { if col.id == colID { ...; break } }`:
the first registry entry with the given id, if any. -/
def lookupColumn (cols : List columnDef) (colID : String) : Option columnDef :=
  cols.find? (fun col => col.id == colID)

/-- Header loop of `ListInstances`. -/
def buildHeader (cols : List columnDef) (selectedColumns : List String) : Row :=
  selectedColumns.foldl
    (fun headerRow colID =>
      match lookupColumn cols colID with
      | some col => headerRow ++ [some col.title]
      | none => headerRow)
    []

/-- Row loop body of `ListInstances`: `row := make(table.Row, len(selectedColumns))`,
then `row[i] = col.getValue(&instance)` for each selected column found. -/
def buildRow (cols : List columnDef) (selectedColumns : List String)
    (inst : CacheCluster) : Except Failure Row :=
  selectedColumns.enum.foldlM
    (fun (row : Row) (p : Nat × String) =>
      match lookupColumn cols p.2 with
      | some col => do
          let v ← col.getValue inst
          pure (row.set p.1 (some v))
      | none => pure row)
    (List.replicate selectedColumns.length none)

/-- Function `sortBy` of the elasticache service. -/
def sortBy (sortOrder : List String) : List SortBy :=
  let sortOrder := if sortOrder.length = 0 then ["name"] else sortOrder
  sortOrder.foldl
    (fun sortBy sortField => sortBy ++ [{ Name := sortField, Mode := SortMode.Asc }])
    []

/-- Function `setStyle` of the elasticache service (the `fmt.Println` is not modelled). -/
def setStyle (t : Table) (list : Bool) : Table :=
  let tableStyle := if list then StyleRounded else StyleRounded
  let t := t.SetStyle tableStyle
  let t := { t with style := { t.style with Header := Format.FormatTitle } }
  if list then
    { t with style :=
        { DrawBorder := false, SeparateColumns := false, SeparateHeader := false,
          Header := Format.FormatUpper } }
  else t

/-- Selected Column Set of `ListInstances`: the literal, then the
`if showEndpoint` append. -/
def selectedColumns (showEndpoint : Bool) : List String :=
  let selectedColumns := ["name", "status", "engine_version", "instance_type"]
  if showEndpoint then selectedColumns ++ ["endpoint"] else selectedColumns

/-- Method `ListInstances`; `fetch` is the result of `DescribeCacheClusters`
(the records, or the error message). The result is the table handed to
`Render`. -/
def ListInstances (ResourceState : String → String)
    (fetch : Except String (List CacheCluster))
    (sortOrder : List String) (list : Bool) (showEndpoint : Bool) :
    Except Failure Table := do
  let output ← match fetch with
    | .ok o => pure o
    | .error e => throw (Failure.fetch e)
  let instances : List CacheCluster := [] ++ output
  let selectedColumns := selectedColumns showEndpoint
  let t := NewWriter
  let headerRow := buildHeader (availableColumns ResourceState) selectedColumns
  let t := t.AppendHeader headerRow
  let t ← instances.foldlM
    (fun (t : Table) inst => do
      let row ← buildRow (availableColumns ResourceState) selectedColumns inst
      pure (t.AppendRow row))
    t
  let t := t.SortBy (sortBy sortOrder)
  let t := setStyle t list
  pure t

/-- The cell a selected column contributes for one record: the registry
column's value, or the untouched `nil` slot when the id is not registered. -/
def cellOf (cols : List columnDef) (inst : CacheCluster)
    (colID : String) : Except Failure (Option String) :=
  match lookupColumn cols colID with
  | some col => (col.getValue inst).map some
  | none => pure none

/-- Specification predicate (row projection): `t` carries one header row and one
row per record, all as long as `ids`; `header[j]` is the title of the registry
column with id `ids[j]` and `rows[i][j]` is the value that column's `getValue`
returns on `recs[i]`. -/
def Projected (cols : List columnDef) (ids : List String) (recs : List CacheCluster)
    (t : Table) : Prop :=
  ∃ hdr : Row, t.rowsHeader = [hdr] ∧ hdr.length = ids.length ∧ t.rows.length = recs.length ∧
    ∀ (j : Nat) (id : String), ids[j]? = some id →
      ∃ col, lookupColumn cols id = some col ∧ col.id = id ∧
        hdr[j]? = some (some col.title) ∧
        ∀ (i : Nat) (r : CacheCluster), recs[i]? = some r →
          ∃ (row : Row) (v : String), t.rows[i]? = some row ∧ row.length = ids.length ∧
            col.getValue r = .ok v ∧ row[j]? = some (some v)

/-- Specification predicate: no selected column's `getValue` panics on any record. -/
def Projectable (cols : List columnDef) (ids : List String) (recs : List CacheCluster) : Prop :=
  ∀ r ∈ recs, ∀ id ∈ ids, ∀ col, lookupColumn cols id = some col → ∃ v, col.getValue r = .ok v

end elasticache

/-! ## pkg/service/ssm -/

namespace ssm

/-- AWS SDK `types.ParameterMetadata`, the fields the listing reads. -/
structure ParameterMetadata where
  Name : Option String
  Type_ : String
  deriving DecidableEq, Repr

/-- Type `columnDef` of the ssm service. -/
structure columnDef where
  id : String
  title : String
  getValue : ParameterMetadata → String

/-- Registry `availableColumns` of the ssm service. -/
def availableColumns : List columnDef :=
  [ { id := "name", title := "Name",
      getValue := fun p => elasticache.ToString p.Name },
    { id := "type", title := "Type",
      getValue := fun p => p.Type_ } ]

/-- Inner loop `for _, col := range availableColumns { if col.id == colID { ...; break } }`. -/
def lookupColumn (cols : List columnDef) (colID : String) : Option columnDef :=
  cols.find? (fun col => col.id == colID)

/-- Header loop of `ListParameters`. -/
def buildHeader (cols : List columnDef) (selectedColumns : List String) : Row :=
  selectedColumns.foldl
    (fun headerRow colID =>
      match lookupColumn cols colID with
      | some col => headerRow ++ [some col.title]
      | none => headerRow)
    []

/-- Row loop body of `ListParameters`: `row := make(table.Row, 0)`, then an
append for each selected column found. -/
def buildRow (cols : List columnDef) (selectedColumns : List String)
    (param : ParameterMetadata) : Row :=
  selectedColumns.foldl
    (fun row colID =>
      match lookupColumn cols colID with
      | some col => row ++ [some (col.getValue param)]
      | none => row)
    []

/-- The column list `ListParameters` works with after its first `if`. -/
def effectiveColumns (selectedColumns : List String) : List String :=
  if selectedColumns.length = 0 then ["type", "name"] else selectedColumns

/-- Method `ListParameters`; `fetch` is the result of `DescribeParameters`
(the records, or the error message), and `SetStyle` is
`tableformat.SetStyle(t, true, false, nil)`, taken as a parameter acting on
the style. The result is the table handed to `Render`. -/
def ListParameters (SetStyle : Style → Style)
    (fetch : Except String (List ParameterMetadata))
    (selectedColumns : List String) : Except Failure Table := do
  let selectedColumns := effectiveColumns selectedColumns
  let params ← match fetch with
    | .ok o => pure o
    | .error e => throw (Failure.fetch e)
  let t := NewWriter
  let headerRow := buildHeader availableColumns selectedColumns
  let t := t.AppendHeader headerRow
  let t := params.foldl
    (fun (t : Table) param => t.AppendRow (buildRow availableColumns selectedColumns param))
    t
  let t := { t with style := SetStyle t.style }
  pure t

/-- Specification predicate (row projection): `t` carries one header row and one
row per record, all as long as `ids`; `header[j]` is the title of the registry
column with id `ids[j]` and `rows[i][j]` is that column's `getValue` on `recs[i]`. -/
def Projected (cols : List columnDef) (ids : List String) (recs : List ParameterMetadata)
    (t : Table) : Prop :=
  ∃ hdr : Row, t.rowsHeader = [hdr] ∧ hdr.length = ids.length ∧ t.rows.length = recs.length ∧
    ∀ (j : Nat) (id : String), ids[j]? = some id →
      ∃ col, lookupColumn cols id = some col ∧ col.id = id ∧
        hdr[j]? = some (some col.title) ∧
        ∀ (i : Nat) (p : ParameterMetadata), recs[i]? = some p →
          ∃ row : Row, t.rows[i]? = some row ∧ row.length = ids.length ∧
            row[j]? = some (some (col.getValue p))

/-- The registry columns found for a list of ids, in the order of the ids;
ids that are not registered are left out. -/
def registeredColumns (cols : List columnDef) (ids : List String) : List columnDef :=
  ids.filterMap (lookupColumn cols)

end ssm

/-! ## Theorems -/

theorem asg_visitFlag_eq (acc : List String) (name : String) :
    asg.visitFlag acc name = acc ++ (asg.specSortTitle name).toList := by
  unfold asg.visitFlag asg.specSortTitle
  split <;> simp_all

theorem ec2_visitFlag_eq (acc : List String) (name : String) :
    ec2.visitFlag acc name = acc ++ (ec2.specSortTitle name).toList := by
  unfold ec2.visitFlag ec2.specSortTitle
  split <;> simp_all


theorem asg_foldl_visitFlag (visited acc : List String) :
    visited.foldl asg.visitFlag acc = acc ++ visited.filterMap asg.specSortTitle := by
  induction visited generalizing acc with
  | nil => simp
  | cons name rest ih =>
    rw [List.foldl_cons, ih, asg_visitFlag_eq]
    cases h : asg.specSortTitle name <;> simp [List.filterMap_cons, h]

theorem ec2_foldl_visitFlag (visited acc : List String) :
    visited.foldl ec2.visitFlag acc = acc ++ visited.filterMap ec2.specSortTitle := by
  induction visited generalizing acc with
  | nil => simp
  | cons name rest ih =>
    rw [List.foldl_cons, ih, ec2_visitFlag_eq]
    cases h : ec2.specSortTitle name <;> simp [List.filterMap_cons, h]

theorem asg_PreRun_sortOrder (v : asg.Vars) (visited : List String) :
    (asg.PreRun v visited).sortOrder = visited.filterMap asg.specSortTitle := by
  simp [asg.PreRun, asg_foldl_visitFlag]

theorem ec2_PreRun_sortOrder (v : ec2.Vars) (visited : List String) :
    (ec2.PreRun v visited).sortOrder = visited.filterMap ec2.specSortTitle := by
  simp [ec2.PreRun, ec2_foldl_visitFlag]

/-- C1: in the asg and ec2 `ls` hooks, for every sequence of visited flag names the
resulting `sortOrder` is the sequence of the fixed titles of the recognised sort
flags, in visit order, unrecognised flags contributing nothing; visiting
`[sort-instances, sort-name]` gives `[Instances, Name]`, and when `sort-name` is
not visited nothing is contributed. -/
theorem C1_sortOrder_collection (va : asg.Vars) (ve : ec2.Vars) (visited : List String) :
    (asg.PreRun va visited).sortOrder = visited.filterMap asg.specSortTitle
    ∧ (ec2.PreRun ve visited).sortOrder = visited.filterMap ec2.specSortTitle
    ∧ (asg.PreRun va ["sort-instances", "sort-name"]).sortOrder = ["Instances", "Name"]
    ∧ (asg.PreRun va ["list", "sort-max-capacity", "arn", "sort-min-capacity"]).sortOrder
        = ["Max Capacity", "Min Capacity"]
    ∧ (ec2.PreRun ve ["sort-launch-time", "launch-time", "sort-type", "sort-id", "sort-name"]).sortOrder
        = ["Launch Time", "Type", "Instance ID", "Name"]
    ∧ (asg.PreRun va []).sortOrder = []
    ∧ (ec2.PreRun ve []).sortOrder = [] := by
  refine ⟨asg_PreRun_sortOrder va visited, ec2_PreRun_sortOrder ve visited, ?_, ?_, ?_, ?_, ?_⟩
  · rw [asg_PreRun_sortOrder]; decide
  · rw [asg_PreRun_sortOrder]; decide
  · rw [ec2_PreRun_sortOrder]; decide
  · rw [asg_PreRun_sortOrder]; rfl
  · rw [ec2_PreRun_sortOrder]; rfl

/-- C5: the Selected Column Set is the fixed default list of the resource kind,
followed only when the display flag is true by the single column id of the flag,
and it has no duplicate id (ec2: 5 columns, 6 with `showLaunchTime`; asg: plus
`arn` with `showARNs`; elasticache: plus `endpoint` with `showEndpoint`). -/
theorem C5_column_selection (va : asg.Vars) (ve : ec2.Vars) (visited : List String)
    (showEndpoint : Bool) :
    ((ec2.PreRun ve visited).selectedColumns
        = ["name", "instance_id", "state", "instance_type", "public_ip"]
            ++ (if ve.showLaunchTime then ["launch_time"] else [])
      ∧ (ec2.PreRun ve visited).selectedColumns.length = (if ve.showLaunchTime then 6 else 5)
      ∧ (ec2.PreRun ve visited).selectedColumns.Nodup)
    ∧ ((asg.PreRun va visited).selectedColumns
        = ["name", "instances", "desired_capacity", "min_capacity", "max_capacity"]
            ++ (if va.showARNs then ["arn"] else [])
      ∧ (asg.PreRun va visited).selectedColumns.Nodup)
    ∧ (elasticache.selectedColumns showEndpoint
        = ["name", "status", "engine_version", "instance_type"]
            ++ (if showEndpoint then ["endpoint"] else [])
      ∧ (elasticache.selectedColumns showEndpoint).Nodup) := by
  refine ⟨?_, ?_, ?_⟩
  · cases h : ve.showLaunchTime <;> simp [ec2.PreRun, h]
  · cases h : va.showARNs <;> simp [asg.PreRun, h]
  · cases showEndpoint <;> simp [elasticache.selectedColumns]

/-- C9: whatever the package-level `sortOrder` and `selectedColumns` (and `list`)
held before, the values the asg and ec2 `ls` hooks leave in them depend only on
the display flag and the visited flag sequence; running the hook a second time
with the same inputs leaves the same state. -/
theorem C9_fresh_rebuild (so so2 sc sc2 : List String) (l l2 d : Bool) (visited : List String) :
    ((asg.PreRun { sortOrder := so, list := l, showARNs := d, selectedColumns := sc } visited).sortOrder
        = (asg.PreRun { sortOrder := so2, list := l2, showARNs := d, selectedColumns := sc2 }
            visited).sortOrder
      ∧ (asg.PreRun { sortOrder := so, list := l, showARNs := d, selectedColumns := sc }
            visited).selectedColumns
          = (asg.PreRun { sortOrder := so2, list := l2, showARNs := d, selectedColumns := sc2 }
              visited).selectedColumns
      ∧ asg.PreRun
            (asg.PreRun { sortOrder := so, list := l, showARNs := d, selectedColumns := sc } visited)
            visited
          = asg.PreRun { sortOrder := so, list := l, showARNs := d, selectedColumns := sc } visited)
    ∧ ((ec2.PreRun { sortOrder := so, list := l, showLaunchTime := d, selectedColumns := sc }
            visited).sortOrder
        = (ec2.PreRun { sortOrder := so2, list := l2, showLaunchTime := d, selectedColumns := sc2 }
            visited).sortOrder
      ∧ (ec2.PreRun { sortOrder := so, list := l, showLaunchTime := d, selectedColumns := sc }
            visited).selectedColumns
          = (ec2.PreRun { sortOrder := so2, list := l2, showLaunchTime := d, selectedColumns := sc2 }
              visited).selectedColumns
      ∧ ec2.PreRun
            (ec2.PreRun { sortOrder := so, list := l, showLaunchTime := d, selectedColumns := sc }
              visited)
            visited
          = ec2.PreRun { sortOrder := so, list := l, showLaunchTime := d, selectedColumns := sc }
              visited) := by
  refine ⟨⟨rfl, rfl, rfl⟩, ⟨rfl, rfl, rfl⟩⟩

theorem sortBy_foldl (xs : List String) (acc : List SortBy) :
    xs.foldl (fun sortBy sortField => sortBy ++ [{ Name := sortField, Mode := SortMode.Asc }]) acc
      = acc ++ xs.map (fun n => ({ Name := n, Mode := SortMode.Asc } : SortBy)) := by
  induction xs generalizing acc with
  | nil => simp
  | cons x rest ih => simp [ih]

theorem sortBy_nonempty (sortOrder : List String) (h : sortOrder ≠ []) :
    elasticache.sortBy sortOrder
      = sortOrder.map (fun n => ({ Name := n, Mode := SortMode.Asc } : SortBy)) := by
  have hl : sortOrder.length ≠ 0 := by
    intro h0; exact h (List.length_eq_zero.mp h0)
  simp [elasticache.sortBy, hl, sortBy_foldl]

/-- C10: for every non-empty `sortOrder`, elasticache `sortBy` returns a list of
the same length whose i-th entry has `Name` equal to `sortOrder[i]` and mode
ascending; no entry is descending. -/
theorem C10_sortBy_priority (sortOrder : List String) (h : sortOrder ≠ []) :
    (elasticache.sortBy sortOrder).length = sortOrder.length
    ∧ (∀ i (hi : i < sortOrder.length),
        (elasticache.sortBy sortOrder)[i]?
          = some { Name := sortOrder.get ⟨i, hi⟩, Mode := SortMode.Asc })
    ∧ (∀ e ∈ elasticache.sortBy sortOrder, e.Mode = SortMode.Asc) := by
  rw [sortBy_nonempty sortOrder h]
  refine ⟨by simp, ?_, ?_⟩
  · intro i hi
    simp [List.getElem?_map, List.getElem?_eq_getElem hi]
  · intro e he
    simp only [List.mem_map] at he
    obtain ⟨n, _, rfl⟩ := he
    rfl

/-- C10 (witness): the statement at `sortOrder = [Status, Cache name]`. -/
theorem C10_sortBy_priority_witness :
    ["Status", "Cache name"] ≠ []
    ∧ (elasticache.sortBy ["Status", "Cache name"]).length = ["Status", "Cache name"].length
    ∧ (∀ i (hi : i < ["Status", "Cache name"].length),
        (elasticache.sortBy ["Status", "Cache name"])[i]?
          = some { Name := ["Status", "Cache name"].get ⟨i, hi⟩, Mode := SortMode.Asc })
    ∧ (∀ e ∈ elasticache.sortBy ["Status", "Cache name"], e.Mode = SortMode.Asc) :=
  ⟨by decide, C10_sortBy_priority ["Status", "Cache name"] (by decide)⟩

theorem except_mapM_ok_iff {ε α β : Type} (f : α → Except ε β) (l : List α) (ys : List β) :
    l.mapM f = .ok ys ↔ List.Forall₂ (fun x y => f x = .ok y) l ys := by
  induction l generalizing ys with
  | nil =>
    rw [List.mapM_nil]
    constructor
    · intro h; cases h; exact List.Forall₂.nil
    · intro h; cases h; rfl
  | cons x rest ih =>
    rw [List.mapM_cons]
    cases hx : f x with
    | error e =>
      simp [bind, Except.bind]
      intro h
      cases h with
      | cons h1 _ => rw [hx] at h1; cases h1
    | ok y =>
      cases hr : rest.mapM f with
      | error e =>
        simp [bind, Except.bind, pure, Except.pure]
        intro h
        cases h with
        | cons h1 h2 =>
          have := (ih _).mpr h2
          rw [hr] at this; cases this
      | ok ys2 =>
        simp [bind, Except.bind, pure, Except.pure]
        constructor
        · intro h; subst h
          exact List.Forall₂.cons hx ((ih _).mp hr)
        · intro h
          cases h with
          | cons h1 h2 =>
            rw [hx] at h1
            have h3 := (ih _).mpr h2
            rw [hr] at h3
            cases h1; cases h3; rfl

theorem elasticache_buildRow_aux (cols : List elasticache.columnDef) (r : elasticache.CacheCluster)
    (ids : List String) (k : Nat) (pre : Row) (hk : pre.length = k) :
    (ids.enumFrom k).foldlM
        (fun (row : Row) (p : Nat × String) =>
          match elasticache.lookupColumn cols p.2 with
          | some col => do
              let v ← col.getValue r
              pure (row.set p.1 (some v))
          | none => pure row)
        (pre ++ List.replicate ids.length none)
      = (ids.mapM (elasticache.cellOf cols r)).map (fun cs => pre ++ cs) := by
  induction ids generalizing k pre with
  | nil =>
    rw [List.mapM_nil]
    simp [List.enumFrom, pure, Except.pure, Except.map]
  | cons colID rest ih =>
    rw [List.mapM_cons]
    simp only [List.enumFrom, List.foldlM_cons, List.length_cons, List.replicate_succ]
    have hset : ∀ c : Option String,
        pre ++ c :: List.replicate rest.length none
          = (pre ++ [c]) ++ List.replicate rest.length none := by
      intro c; simp
    cases hl : elasticache.lookupColumn cols colID with
    | none =>
      simp only [elasticache.cellOf, hl]
      rw [show (pure (pre ++ none :: List.replicate rest.length none) : Except Failure Row)
            = Except.ok ((pre ++ [none]) ++ List.replicate rest.length none) from by
              rw [hset]; rfl]
      simp only [bind, Except.bind, pure, Except.pure]
      have := ih (k + 1) (pre ++ [none]) (by simp [hk])
      simp only [bind, Except.bind, pure, Except.pure] at this
      rw [this]
      cases rest.mapM (elasticache.cellOf cols r) <;> simp [Except.map]
    | some col =>
      simp only [elasticache.cellOf, hl]
      cases hv : col.getValue r with
      | error e => simp [bind, Except.bind, Except.map]
      | ok v =>
        have hs : (pre ++ none :: List.replicate rest.length none).set k (some v)
            = (pre ++ [some v]) ++ List.replicate rest.length none := by
          subst hk
          simp [List.set_append]
        simp only [bind, Except.bind, pure, Except.pure, Except.map, hs]
        have := ih (k + 1) (pre ++ [some v]) (by simp [hk])
        simp only [bind, Except.bind, pure, Except.pure] at this
        rw [this]
        cases rest.mapM (elasticache.cellOf cols r) <;> simp [Except.map]

theorem elasticache_buildRow_eq (cols : List elasticache.columnDef) (ids : List String)
    (r : elasticache.CacheCluster) :
    elasticache.buildRow cols ids r = ids.mapM (elasticache.cellOf cols r) := by
  have := elasticache_buildRow_aux cols r ids 0 [] rfl
  simp only [List.nil_append] at this
  unfold elasticache.buildRow List.enum
  rw [this]
  cases ids.mapM (elasticache.cellOf cols r) <;> simp [Except.map]

theorem elasticache_rowsLoop (f : elasticache.CacheCluster → Except Failure Row)
    (recs : List elasticache.CacheCluster) (t0 : Table) :
    recs.foldlM (fun (t : Table) inst => do
        let row ← f inst
        pure (t.AppendRow row)) t0
      = (recs.mapM f).map (fun rows => { t0 with rows := t0.rows ++ rows }) := by
  induction recs generalizing t0 with
  | nil =>
    rw [List.mapM_nil]
    simp [pure, Except.pure, Except.map]
  | cons x rest ih =>
    rw [List.mapM_cons, List.foldlM_cons]
    cases hx : f x with
    | error e => simp [bind, Except.bind, Except.map]
    | ok row =>
      simp only [bind, Except.bind, pure, Except.pure]
      have := ih (t0.AppendRow row)
      simp only [bind, Except.bind, pure, Except.pure] at this
      rw [this]
      cases rest.mapM f <;> simp [Except.map, Table.AppendRow]

theorem forall₂_getElem? {α β : Type} {R : α → β → Prop} {l₁ : List α} {l₂ : List β}
    (h : List.Forall₂ R l₁ l₂) (i : Nat) (x : α) (hx : l₁[i]? = some x) :
    ∃ y, l₂[i]? = some y ∧ R x y := by
  induction h generalizing i with
  | nil => simp at hx
  | cons hab _ ih =>
    cases i with
    | zero =>
      simp only [List.getElem?_cons_zero, Option.some.injEq] at hx
      subst hx
      exact ⟨_, by simp, hab⟩
    | succ n =>
      simp only [List.getElem?_cons_succ] at hx
      obtain ⟨y, hy, hr⟩ := ih n hx
      exact ⟨y, by simpa using hy, hr⟩

theorem forall₂_of_forall_exists {α β : Type} {R : α → β → Prop} (l₁ : List α)
    (h : ∀ x ∈ l₁, ∃ y, R x y) : ∃ l₂, List.Forall₂ R l₁ l₂ := by
  induction l₁ with
  | nil => exact ⟨[], List.Forall₂.nil⟩
  | cons x rest ih =>
    obtain ⟨y, hy⟩ := h x (List.mem_cons_self _ _)
    obtain ⟨ys, hys⟩ := ih (fun z hz => h z (List.mem_cons_of_mem _ hz))
    exact ⟨y :: ys, List.Forall₂.cons hy hys⟩

theorem forall₂_left_mem {α β : Type} {R : α → β → Prop} {l₁ : List α} {l₂ : List β}
    (h : List.Forall₂ R l₁ l₂) (x : α) (hx : x ∈ l₁) : ∃ y, R x y := by
  induction h with
  | nil => cases hx
  | cons hab _ ih =>
    rcases List.mem_cons.mp hx with rfl | hm
    · exact ⟨_, hab⟩
    · exact ih hm

theorem filterMap_eq_map_of_forall {α β : Type} (f : α → Option β) (g : α → β) (l : List α)
    (h : ∀ x ∈ l, f x = some (g x)) : l.filterMap f = l.map g := by
  induction l with
  | nil => rfl
  | cons x rest ih =>
    rw [List.filterMap_cons, h x (List.mem_cons_self _ _), List.map_cons,
      ih (fun z hz => h z (List.mem_cons_of_mem _ hz))]

theorem elasticache_buildHeader_foldl (cols : List elasticache.columnDef) (ids : List String)
    (acc : Row) :
    ids.foldl
        (fun headerRow colID =>
          match elasticache.lookupColumn cols colID with
          | some col => headerRow ++ [some col.title]
          | none => headerRow) acc
      = acc ++ ids.filterMap (fun colID =>
          (elasticache.lookupColumn cols colID).map (fun col => some col.title)) := by
  induction ids generalizing acc with
  | nil => simp
  | cons colID rest ih =>
    rw [List.foldl_cons, ih, List.filterMap_cons]
    cases elasticache.lookupColumn cols colID <;> simp

theorem elasticache_buildHeader_filterMap (cols : List elasticache.columnDef) (ids : List String) :
    elasticache.buildHeader cols ids
      = ids.filterMap (fun colID =>
          (elasticache.lookupColumn cols colID).map (fun col => some col.title)) := by
  unfold elasticache.buildHeader
  rw [elasticache_buildHeader_foldl]
  simp

theorem elasticache_lookup_id (cols : List elasticache.columnDef) (colID : String)
    (col : elasticache.columnDef) (h : elasticache.lookupColumn cols colID = some col) :
    col.id = colID := by
  unfold elasticache.lookupColumn at h
  have := List.find?_some h
  simpa using this

theorem elasticache_registered (rs : String → String) (se : Bool) :
    ∀ id ∈ elasticache.selectedColumns se,
      ∃ col, elasticache.lookupColumn (elasticache.availableColumns rs) id = some col := by
  cases se <;>
    simp [elasticache.selectedColumns, elasticache.lookupColumn, elasticache.availableColumns,
      List.find?]

theorem elasticache_setStyle_fields (t : Table) (list : Bool) :
    (elasticache.setStyle t list).rowsHeader = t.rowsHeader
    ∧ (elasticache.setStyle t list).rows = t.rows
    ∧ (elasticache.setStyle t list).sortBy = t.sortBy := by
  cases list <;> simp [elasticache.setStyle, Table.SetStyle]

theorem elasticache_ListInstances_eq (rs : String → String)
    (recs : List elasticache.CacheCluster) (so : List String) (l se : Bool) :
    elasticache.ListInstances rs (.ok recs) so l se
      = (recs.mapM (fun r => (elasticache.selectedColumns se).mapM
            (elasticache.cellOf (elasticache.availableColumns rs) r))).map
          (fun rows => elasticache.setStyle
            { rowsHeader := [elasticache.buildHeader (elasticache.availableColumns rs)
                              (elasticache.selectedColumns se)],
              rows := rows, sortBy := elasticache.sortBy so, style := NewWriter.style } l) := by
  unfold elasticache.ListInstances
  simp only [List.nil_append, bind, Except.bind, pure, Except.pure]
  have h := elasticache_rowsLoop
    (fun r => elasticache.buildRow (elasticache.availableColumns rs)
      (elasticache.selectedColumns se) r) recs
    (NewWriter.AppendHeader (elasticache.buildHeader (elasticache.availableColumns rs)
      (elasticache.selectedColumns se)))
  simp only [bind, Except.bind, pure, Except.pure] at h
  rw [h]
  simp only [elasticache_buildRow_eq]
  cases recs.mapM (fun r => (elasticache.selectedColumns se).mapM
      (elasticache.cellOf (elasticache.availableColumns rs) r)) <;>
    simp [Except.map, Table.SortBy, Table.AppendHeader, NewWriter]

theorem elasticache_cellOf_ok (cols : List elasticache.columnDef) (r : elasticache.CacheCluster)
    (colID : String) (col : elasticache.columnDef) (c : Option String)
    (hl : elasticache.lookupColumn cols colID = some col)
    (hc : elasticache.cellOf cols r colID = .ok c) :
    ∃ v, col.getValue r = .ok v ∧ c = some v := by
  simp only [elasticache.cellOf, hl] at hc
  cases hv : col.getValue r with
  | error e => rw [hv] at hc; simp [Except.map] at hc
  | ok v =>
    rw [hv] at hc
    simp only [Except.map, Except.ok.injEq] at hc
    exact ⟨v, rfl, hc.symm⟩

theorem elasticache_ok_projected (rs : String → String)
    (recs : List elasticache.CacheCluster) (so : List String) (l se : Bool) (t : Table)
    (h : elasticache.ListInstances rs (.ok recs) so l se = .ok t) :
    elasticache.Projected (elasticache.availableColumns rs) (elasticache.selectedColumns se)
      recs t := by
  rw [elasticache_ListInstances_eq] at h
  cases hm : recs.mapM (fun r => (elasticache.selectedColumns se).mapM
      (elasticache.cellOf (elasticache.availableColumns rs) r)) with
  | error e => rw [hm] at h; simp [Except.map] at h
  | ok rows =>
    rw [hm] at h
    simp only [Except.map, Except.ok.injEq] at h
    subst h
    have hf := (except_mapM_ok_iff _ _ _).mp hm
    have hreg := elasticache_registered rs se
    have hhdr : elasticache.buildHeader (elasticache.availableColumns rs)
          (elasticache.selectedColumns se)
        = (elasticache.selectedColumns se).map (fun colID =>
            (elasticache.lookupColumn (elasticache.availableColumns rs) colID).map
              (fun col => col.title)) := by
      rw [elasticache_buildHeader_filterMap]
      apply filterMap_eq_map_of_forall
      intro id hid
      obtain ⟨col, hcol⟩ := hreg id hid
      simp [hcol]
    obtain ⟨hsh, hsr, _⟩ := elasticache_setStyle_fields
      { rowsHeader := [elasticache.buildHeader (elasticache.availableColumns rs)
                        (elasticache.selectedColumns se)],
        rows := rows, sortBy := elasticache.sortBy so, style := NewWriter.style } l
    refine ⟨_, hsh, ?_, ?_, ?_⟩
    · rw [hhdr, List.length_map]
    · rw [hsr]; exact hf.length_eq.symm
    · intro j id hj
      obtain ⟨col, hcol⟩ := hreg id (List.getElem?_mem hj)
      refine ⟨col, hcol, elasticache_lookup_id _ _ _ hcol, ?_, ?_⟩
      · rw [hhdr, List.getElem?_map, hj]
        simp [hcol]
      · intro i r hi
        obtain ⟨row, hrow, hrm⟩ := forall₂_getElem? hf i r hi
        have hf2 := (except_mapM_ok_iff _ _ _).mp hrm
        obtain ⟨c, hc, hcell⟩ := forall₂_getElem? hf2 j id hj
        obtain ⟨v, hv, rfl⟩ := elasticache_cellOf_ok _ _ _ _ _ hcol hcell
        exact ⟨row, v, by rw [hsr]; exact hrow, hf2.length_eq.symm, hv, hc⟩

theorem elasticache_ok_iff (rs : String → String)
    (recs : List elasticache.CacheCluster) (so : List String) (l se : Bool) :
    (∃ t, elasticache.ListInstances rs (.ok recs) so l se = .ok t)
      ↔ elasticache.Projectable (elasticache.availableColumns rs)
          (elasticache.selectedColumns se) recs := by
  rw [elasticache_ListInstances_eq]
  constructor
  · rintro ⟨t, h⟩
    cases hm : recs.mapM (fun r => (elasticache.selectedColumns se).mapM
        (elasticache.cellOf (elasticache.availableColumns rs) r)) with
    | error e => rw [hm] at h; simp [Except.map] at h
    | ok rows =>
      have hf := (except_mapM_ok_iff _ _ _).mp hm
      intro r hr id hid col hcol
      obtain ⟨row, hrow⟩ := forall₂_left_mem hf r hr
      have hf2 := (except_mapM_ok_iff _ _ _).mp hrow
      obtain ⟨c, hc⟩ := forall₂_left_mem hf2 id hid
      obtain ⟨v, hv, _⟩ := elasticache_cellOf_ok _ _ _ _ _ hcol hc
      exact ⟨v, hv⟩
  · intro hp
    have : ∃ rows, List.Forall₂
        (fun r row => (elasticache.selectedColumns se).mapM
          (elasticache.cellOf (elasticache.availableColumns rs) r) = .ok row) recs rows := by
      apply forall₂_of_forall_exists
      intro r hr
      have : ∃ row, List.Forall₂
          (fun id c => elasticache.cellOf (elasticache.availableColumns rs) r id = .ok c)
          (elasticache.selectedColumns se) row := by
        apply forall₂_of_forall_exists
        intro id hid
        obtain ⟨col, hcol⟩ := elasticache_registered rs se id hid
        obtain ⟨v, hv⟩ := hp r hr id hid col hcol
        exact ⟨some v, by simp [elasticache.cellOf, hcol, hv, Except.map]⟩
      obtain ⟨row, hrow⟩ := this
      exact ⟨row, (except_mapM_ok_iff _ _ _).mpr hrow⟩
    obtain ⟨rows, hrows⟩ := this
    rw [(except_mapM_ok_iff _ _ _).mpr hrows]
    exact ⟨_, rfl⟩

theorem ssm_foldl_lookup {β : Type} (cols : List ssm.columnDef) (g : ssm.columnDef → β)
    (ids : List String) (acc : List β) :
    ids.foldl
        (fun row colID =>
          match ssm.lookupColumn cols colID with
          | some col => row ++ [g col]
          | none => row) acc
      = acc ++ (ssm.registeredColumns cols ids).map g := by
  induction ids generalizing acc with
  | nil => simp [ssm.registeredColumns]
  | cons colID rest ih =>
    rw [List.foldl_cons, ih]
    unfold ssm.registeredColumns
    rw [List.filterMap_cons]
    cases ssm.lookupColumn cols colID <;> simp

theorem ssm_buildHeader_eq (cols : List ssm.columnDef) (ids : List String) :
    ssm.buildHeader cols ids = (ssm.registeredColumns cols ids).map (fun col => some col.title) := by
  unfold ssm.buildHeader
  rw [ssm_foldl_lookup cols (fun col => some col.title)]
  simp

theorem ssm_buildRow_eq (cols : List ssm.columnDef) (ids : List String)
    (p : ssm.ParameterMetadata) :
    ssm.buildRow cols ids p
      = (ssm.registeredColumns cols ids).map (fun col => some (col.getValue p)) := by
  unfold ssm.buildRow
  rw [ssm_foldl_lookup cols (fun col => some (col.getValue p))]
  simp

theorem ssm_rowsLoop (f : ssm.ParameterMetadata → Row) (params : List ssm.ParameterMetadata)
    (t0 : Table) :
    params.foldl (fun (t : Table) param => t.AppendRow (f param)) t0
      = { t0 with rows := t0.rows ++ params.map f } := by
  induction params generalizing t0 with
  | nil => simp
  | cons x rest ih =>
    rw [List.foldl_cons, ih]
    simp [Table.AppendRow]

theorem ssm_ListParameters_eq (S : Style → Style) (params : List ssm.ParameterMetadata)
    (sel : List String) :
    ssm.ListParameters S (.ok params) sel
      = .ok { rowsHeader := [(ssm.registeredColumns ssm.availableColumns
                                (ssm.effectiveColumns sel)).map (fun col => some col.title)],
              rows := params.map (fun p =>
                (ssm.registeredColumns ssm.availableColumns (ssm.effectiveColumns sel)).map
                  (fun col => some (col.getValue p))),
              sortBy := [],
              style := S NewWriter.style } := by
  unfold ssm.ListParameters
  simp only [bind, Except.bind, pure, Except.pure]
  rw [ssm_rowsLoop]
  simp only [ssm_buildHeader_eq]
  simp only [Table.AppendHeader, NewWriter, List.nil_append, Except.ok.injEq, Table.mk.injEq,
    and_true, true_and]
  apply List.map_congr_left
  intro a _
  exact ssm_buildRow_eq _ _ _

theorem ssm_lookup_id (cols : List ssm.columnDef) (colID : String)
    (col : ssm.columnDef) (h : ssm.lookupColumn cols colID = some col) :
    col.id = colID := by
  unfold ssm.lookupColumn at h
  have := List.find?_some h
  simpa using this

theorem ssm_registered_eq_map (cols : List ssm.columnDef) (ids : List String)
    (hreg : ∀ id ∈ ids, (ssm.lookupColumn cols id).isSome = true) (d : ssm.columnDef) :
    ssm.registeredColumns cols ids = ids.map (fun id => (ssm.lookupColumn cols id).getD d) := by
  unfold ssm.registeredColumns
  apply filterMap_eq_map_of_forall
  intro id hid
  have := hreg id hid
  cases h : ssm.lookupColumn cols id with
  | none => rw [h] at this; cases this
  | some col => rfl

theorem ssm_projected (S : Style → Style) (params : List ssm.ParameterMetadata)
    (sel : List String)
    (hreg : ∀ id ∈ ssm.effectiveColumns sel,
      (ssm.lookupColumn ssm.availableColumns id).isSome = true) :
    ∃ t, ssm.ListParameters S (.ok params) sel = .ok t
      ∧ ssm.Projected ssm.availableColumns (ssm.effectiveColumns sel) params t := by
  refine ⟨_, ssm_ListParameters_eq S params sel, ?_⟩
  have hmap := ssm_registered_eq_map ssm.availableColumns (ssm.effectiveColumns sel) hreg
    ⟨"", "", fun _ => ""⟩
  refine ⟨_, rfl, ?_, ?_, ?_⟩
  · simp [hmap]
  · simp
  · intro j id hj
    have hs := hreg id (List.getElem?_mem hj)
    cases hcol : ssm.lookupColumn ssm.availableColumns id with
    | none => rw [hcol] at hs; cases hs
    | some col =>
      refine ⟨col, rfl, ssm_lookup_id _ _ _ hcol, ?_, ?_⟩
      · simp [hmap, List.getElem?_map, hj, hcol]
      · intro i p hi
        refine ⟨(ssm.registeredColumns ssm.availableColumns (ssm.effectiveColumns sel)).map
            (fun col => some (col.getValue p)), ?_, ?_, ?_⟩
        · simp only [List.getElem?_map, hi, Option.map_some']
        · simp [hmap]
        · simp [hmap, List.getElem?_map, hj, hcol]

theorem elasticache_ok_sortBy (rs : String → String)
    (recs : List elasticache.CacheCluster) (so : List String) (l se : Bool) (t : Table)
    (h : elasticache.ListInstances rs (.ok recs) so l se = .ok t) :
    t.sortBy = elasticache.sortBy so := by
  rw [elasticache_ListInstances_eq] at h
  cases hm : recs.mapM (fun r => (elasticache.selectedColumns se).mapM
      (elasticache.cellOf (elasticache.availableColumns rs) r)) with
  | error e => rw [hm] at h; simp [Except.map] at h
  | ok rows =>
    rw [hm] at h
    simp only [Except.map, Except.ok.injEq] at h
    subst h
    exact (elasticache_setStyle_fields _ l).2.2

theorem elasticache_ok_lengths (rs : String → String)
    (recs : List elasticache.CacheCluster) (so : List String) (l se : Bool) (t : Table)
    (h : elasticache.ListInstances rs (.ok recs) so l se = .ok t) :
    t.rowsHeader.length = 1
    ∧ (∀ hdr ∈ t.rowsHeader, hdr.length = (elasticache.selectedColumns se).length)
    ∧ (∀ row ∈ t.rows, row.length = (elasticache.selectedColumns se).length) := by
  obtain ⟨hdr, hh, hlen, hrl, hp⟩ := elasticache_ok_projected rs recs so l se t h
  refine ⟨by rw [hh]; rfl, ?_, ?_⟩
  · intro x hx
    rw [hh] at hx
    rw [List.mem_singleton.mp hx]
    exact hlen
  · intro row hrow
    obtain ⟨i, hi⟩ := List.mem_iff_getElem?.mp hrow
    have hil : i < recs.length := by
      rw [← hrl]
      exact (List.getElem?_eq_some.mp hi).1
    have h0 : (elasticache.selectedColumns se)[0]? = some "name" := by
      cases se <;> rfl
    obtain ⟨_, _, _, _, hrows⟩ := hp 0 "name" h0
    obtain ⟨row2, _, hr2, hl2, _, _⟩ := hrows i (recs.get ⟨i, hil⟩) (List.getElem?_eq_getElem hil)
    rw [hi] at hr2
    cases hr2
    exact hl2

theorem ssm_registered_ids (cols : List ssm.columnDef) (ids : List String) :
    (ssm.registeredColumns cols ids).map (fun col => col.id)
      = ids.filter (fun id => (ssm.lookupColumn cols id).isSome) := by
  induction ids with
  | nil => rfl
  | cons colID rest ih =>
    unfold ssm.registeredColumns at ih ⊢
    rw [List.filterMap_cons, List.filter_cons]
    cases h : ssm.lookupColumn cols colID with
    | none => simpa using ih
    | some col =>
      simp only [List.map_cons, Option.isSome_some, if_true]
      rw [ih, ssm_lookup_id cols colID col h]

/-- C2 (the code at the failing input): with an empty `sortOrder`, elasticache
`sortBy` returns the single ascending entry named `name`, the id of the name
column, whereas the title of that column is `Cache name`; the name handed to the
renderer is then none of the rendered header titles. -/
theorem C2_default_sort_uses_id :
    elasticache.sortBy [] = [{ Name := "name", Mode := SortMode.Asc }]
    ∧ (∃ col, elasticache.lookupColumn (elasticache.availableColumns id) "name" = some col
        ∧ col.title = "Cache name")
    ∧ elasticache.sortBy [] ≠ [{ Name := "Cache name", Mode := SortMode.Asc }]
    ∧ (∃ t hdr, elasticache.ListInstances id (.ok []) [] false true = .ok t
        ∧ t.rowsHeader = [hdr]
        ∧ hdr = [some "Cache name", some "Status", some "Engine version",
                  some "Configuration", some "Endpoint"]
        ∧ t.sortBy = [{ Name := "name", Mode := SortMode.Asc }]
        ∧ ∀ e ∈ t.sortBy, some e.Name ∉ hdr) := by
  refine ⟨rfl, ⟨_, rfl, rfl⟩, by decide, ⟨_, _, rfl, rfl, rfl, rfl, by decide⟩⟩

/-- C3: for every record list, elasticache `ListInstances` (either value of
`showEndpoint`) and ssm `ListParameters` (the given list when its ids are all
registered, `[type, name]` when it is empty) hand the renderer a header whose
j-th entry is the title of the registry column with id `ids[j]` and rows whose
entry (i, j) is that column's `getValue` on `records[i]`: selected column order,
not registry order. The elasticache listing yields its table exactly when no
selected `getValue` panics; the ssm listing always yields it. -/
theorem C3_row_projection (rs : String → String) (recs : List elasticache.CacheCluster)
    (so : List String) (l se : Bool) (S : Style → Style)
    (params : List ssm.ParameterMetadata) (sel : List String)
    (hreg : ∀ id ∈ ssm.effectiveColumns sel,
      (ssm.lookupColumn ssm.availableColumns id).isSome = true) :
    (∀ t, elasticache.ListInstances rs (.ok recs) so l se = .ok t →
        elasticache.Projected (elasticache.availableColumns rs)
          (elasticache.selectedColumns se) recs t)
    ∧ ((∃ t, elasticache.ListInstances rs (.ok recs) so l se = .ok t)
        ↔ elasticache.Projectable (elasticache.availableColumns rs)
            (elasticache.selectedColumns se) recs)
    ∧ (∃ t, ssm.ListParameters S (.ok params) sel = .ok t
        ∧ ssm.Projected ssm.availableColumns (ssm.effectiveColumns sel) params t)
    ∧ ssm.effectiveColumns [] = ["type", "name"]
    ∧ (∃ t, ssm.ListParameters S (.ok params) [] = .ok t
        ∧ t.rowsHeader = [[some "Type", some "Name"]]) := by
  refine ⟨fun t h => elasticache_ok_projected rs recs so l se t h,
    elasticache_ok_iff rs recs so l se, ssm_projected S params sel hreg, rfl, ?_⟩
  exact ⟨_, ssm_ListParameters_eq S params [], rfl⟩

/-- C3 (witness): the statement at two cache clusters with `showEndpoint`, and at
two parameters with the column list `[name, type, name]`. -/
theorem C3_row_projection_witness :
    (∀ id ∈ ssm.effectiveColumns ["name", "type", "name"],
      (ssm.lookupColumn ssm.availableColumns id).isSome = true)
    ∧ (∃ t, elasticache.ListInstances id
        (.ok [⟨some "c1", some "available", some "7.1", some "redis", some "cache.t3.micro",
                [⟨some ⟨some "c1.example.com", some 6379⟩⟩]⟩,
              ⟨none, some "creating", some "1.6", some "memcached", some "cache.m5.large",
                [⟨some ⟨some "c2.example.com", none⟩⟩, ⟨none⟩]⟩])
        ["Status"] false true = .ok t)
    ∧ ((∀ t, elasticache.ListInstances id
          (.ok [⟨some "c1", some "available", some "7.1", some "redis", some "cache.t3.micro",
                  [⟨some ⟨some "c1.example.com", some 6379⟩⟩]⟩,
                ⟨none, some "creating", some "1.6", some "memcached", some "cache.m5.large",
                  [⟨some ⟨some "c2.example.com", none⟩⟩, ⟨none⟩]⟩])
          ["Status"] false true = .ok t →
          elasticache.Projected (elasticache.availableColumns id)
            (elasticache.selectedColumns true)
            [⟨some "c1", some "available", some "7.1", some "redis", some "cache.t3.micro",
                [⟨some ⟨some "c1.example.com", some 6379⟩⟩]⟩,
             ⟨none, some "creating", some "1.6", some "memcached", some "cache.m5.large",
                [⟨some ⟨some "c2.example.com", none⟩⟩, ⟨none⟩]⟩] t)
      ∧ (∃ t, ssm.ListParameters id (.ok [⟨some "/app/key", "SecureString"⟩, ⟨none, "String"⟩])
            ["name", "type", "name"] = .ok t
          ∧ ssm.Projected ssm.availableColumns (ssm.effectiveColumns ["name", "type", "name"])
              [⟨some "/app/key", "SecureString"⟩, ⟨none, "String"⟩] t)) := by
  have hreg : ∀ id ∈ ssm.effectiveColumns ["name", "type", "name"],
      (ssm.lookupColumn ssm.availableColumns id).isSome = true := by decide
  have h := C3_row_projection id
    [⟨some "c1", some "available", some "7.1", some "redis", some "cache.t3.micro",
        [⟨some ⟨some "c1.example.com", some 6379⟩⟩]⟩,
     ⟨none, some "creating", some "1.6", some "memcached", some "cache.m5.large",
        [⟨some ⟨some "c2.example.com", none⟩⟩, ⟨none⟩]⟩]
    ["Status"] false true id [⟨some "/app/key", "SecureString"⟩, ⟨none, "String"⟩]
    ["name", "type", "name"] hreg
  exact ⟨hreg, ⟨_, rfl⟩, h.1, h.2.2.1⟩

/-- C4 (counterexample): ssm `ListParameters` called with `[name, arn]`, where
`arn` is not registered, sends a header of one title and rows of one entry,
not of two, the length of the `selectedColumns` argument. -/
theorem C4_counterexample :
    ∃ t hdr, ssm.ListParameters id (.ok [⟨some "/app/key", "String"⟩]) ["name", "arn"] = .ok t
      ∧ t.rowsHeader = [hdr]
      ∧ hdr.length = 1
      ∧ hdr.length ≠ ["name", "arn"].length
      ∧ ∀ row ∈ t.rows, row.length ≠ ["name", "arn"].length := by
  refine ⟨_, _, rfl, rfl, rfl, by decide, by decide⟩

/-- C4 (amended): the header sent to the renderer and every data row have the
same number of entries. For elasticache `ListInstances` it is the length of the
Selected Column Set, 4 without `showEndpoint` and 5 with it (and the table is
produced whenever no selected `getValue` panics). For ssm `ListParameters` it is
the number of registered ids in the effective column list: the length of the
`selectedColumns` argument when all its ids are registered, 2 when it is empty. -/
theorem C4_no_ragged_rows (rs : String → String) (recs : List elasticache.CacheCluster)
    (so : List String) (l se : Bool) (S : Style → Style)
    (params : List ssm.ParameterMetadata) (sel : List String) :
    (∀ t, elasticache.ListInstances rs (.ok recs) so l se = .ok t →
        t.rowsHeader.length = 1
        ∧ (∀ hdr ∈ t.rowsHeader, hdr.length = (elasticache.selectedColumns se).length)
        ∧ (∀ row ∈ t.rows, row.length = (elasticache.selectedColumns se).length))
    ∧ (elasticache.selectedColumns se).length = (if se then 5 else 4)
    ∧ (elasticache.Projectable (elasticache.availableColumns rs)
          (elasticache.selectedColumns se) recs →
        ∃ t, elasticache.ListInstances rs (.ok recs) so l se = .ok t)
    ∧ (∃ t hdr, ssm.ListParameters S (.ok params) sel = .ok t
        ∧ t.rowsHeader = [hdr]
        ∧ hdr.length
            = (ssm.registeredColumns ssm.availableColumns (ssm.effectiveColumns sel)).length
        ∧ (∀ row ∈ t.rows, row.length = hdr.length)
        ∧ ((∀ id ∈ ssm.effectiveColumns sel,
              (ssm.lookupColumn ssm.availableColumns id).isSome = true) →
            hdr.length = (ssm.effectiveColumns sel).length)
        ∧ (sel ≠ [] → ssm.effectiveColumns sel = sel)
        ∧ (sel = [] → hdr.length = 2)) := by
  refine ⟨fun t h => elasticache_ok_lengths rs recs so l se t h, ?_,
    (elasticache_ok_iff rs recs so l se).mpr, ?_⟩
  · cases se <;> rfl
  · refine ⟨_, _, ssm_ListParameters_eq S params sel, rfl, by simp, ?_, ?_, ?_, ?_⟩
    · intro row hrow
      simp only [List.mem_map] at hrow
      obtain ⟨p, _, rfl⟩ := hrow
      simp
    · intro hreg
      rw [ssm_registered_eq_map _ _ hreg ⟨"", "", fun _ => ""⟩]
      simp
    · intro hne
      have : sel.length ≠ 0 := fun h0 => hne (List.length_eq_zero.mp h0)
      simp [ssm.effectiveColumns, this]
    · intro he
      subst he
      rfl

/-- C4 (witness): the amended statement at one cache cluster with `showEndpoint`,
and at one parameter with the column list `[type, type]`. -/
theorem C4_no_ragged_rows_witness :
    (∃ t, elasticache.ListInstances id
        (.ok [⟨some "c1", some "available", some "7.1", some "redis", some "cache.t3.micro",
                [⟨some ⟨some "c1.example.com", some 6379⟩⟩]⟩])
        [] true true = .ok t
      ∧ t.rowsHeader.length = 1
      ∧ (∀ hdr ∈ t.rowsHeader, hdr.length = (elasticache.selectedColumns true).length)
      ∧ (∀ row ∈ t.rows, row.length = (elasticache.selectedColumns true).length))
    ∧ (elasticache.selectedColumns true).length = 5
    ∧ (∃ t hdr, ssm.ListParameters id (.ok [⟨some "/app/key", "String"⟩]) ["type", "type"] = .ok t
        ∧ t.rowsHeader = [hdr]
        ∧ (∀ row ∈ t.rows, row.length = hdr.length)
        ∧ hdr.length = (ssm.effectiveColumns ["type", "type"]).length) := by
  have h := C4_no_ragged_rows id
    [⟨some "c1", some "available", some "7.1", some "redis", some "cache.t3.micro",
        [⟨some ⟨some "c1.example.com", some 6379⟩⟩]⟩]
    [] true true id [⟨some "/app/key", "String"⟩] ["type", "type"]
  obtain ⟨he, hn, _, t, hdr, ht, hh, _, hrows, hall, _, _⟩ := h
  refine ⟨⟨_, rfl, he _ rfl⟩, hn, t, hdr, ht, hh, hrows, hall (by decide)⟩

/-- C6 (counterexample): with `sortOrder = [Endpoint]` and `showEndpoint` false,
elasticache `ListInstances` is not rejected and hands the renderer a sort
specification naming `Endpoint`, which is not among the rendered header titles. -/
theorem C6_counterexample :
    ∃ t hdr, elasticache.ListInstances id (.ok []) ["Endpoint"] false false = .ok t
      ∧ t.rowsHeader = [hdr]
      ∧ hdr = [some "Cache name", some "Status", some "Engine version", some "Configuration"]
      ∧ ∃ e ∈ t.sortBy, some e.Name ∉ hdr := by
  refine ⟨_, _, rfl, rfl, rfl, ⟨"Endpoint", SortMode.Asc⟩, by decide, by decide⟩

/-- C6 (amended): for every non-empty `sortOrder` and every `showEndpoint`, the
sort specification elasticache `ListInstances` hands to the renderer is
`sortBy(sortOrder)`, whose names are exactly the entries of `sortOrder`, in
order: nothing is filtered out, and whether the call yields a table does not
depend on `sortOrder`. Hence every name is a rendered header title exactly when
every entry of `sortOrder` is. -/
theorem C6_sort_names_pass_through (rs : String → String)
    (recs : List elasticache.CacheCluster) (so : List String) (l se : Bool)
    (hne : so ≠ []) :
    (∀ t, elasticache.ListInstances rs (.ok recs) so l se = .ok t →
        t.sortBy = elasticache.sortBy so
        ∧ t.sortBy.map (fun e => e.Name) = so
        ∧ ∃ hdr, t.rowsHeader = [hdr]
            ∧ ((∀ e ∈ t.sortBy, some e.Name ∈ hdr) ↔ (∀ n ∈ so, some n ∈ hdr)))
    ∧ (∀ so2 : List String,
        (∃ t, elasticache.ListInstances rs (.ok recs) so l se = .ok t)
          ↔ (∃ t, elasticache.ListInstances rs (.ok recs) so2 l se = .ok t)) := by
  refine ⟨?_, ?_⟩
  · intro t h
    have hs := elasticache_ok_sortBy rs recs so l se t h
    obtain ⟨hdr, hh, _⟩ := elasticache_ok_projected rs recs so l se t h
    rw [sortBy_nonempty so hne] at hs
    refine ⟨by rw [hs, sortBy_nonempty so hne], ?_, hdr, hh, ?_⟩
    · rw [hs, List.map_map]
      exact List.map_id so
    · rw [hs]
      constructor
      · intro hall n hn
        exact hall ⟨n, SortMode.Asc⟩ (List.mem_map.mpr ⟨n, hn, rfl⟩)
      · intro hall e he
        obtain ⟨n, hn, rfl⟩ := List.mem_map.mp he
        exact hall n hn
  · intro so2
    rw [elasticache_ok_iff, elasticache_ok_iff]

/-- C6 (witness): the amended statement at `sortOrder = [Status, Cache name]`. -/
theorem C6_sort_names_pass_through_witness :
    ["Status", "Cache name"] ≠ []
    ∧ ∃ t, elasticache.ListInstances id
        (.ok [⟨some "c1", some "available", some "7.1", some "redis", some "cache.t3.micro", []⟩])
        ["Status", "Cache name"] false false = .ok t
      ∧ t.sortBy.map (fun e => e.Name) = ["Status", "Cache name"]
      ∧ ∃ hdr, t.rowsHeader = [hdr]
          ∧ ((∀ e ∈ t.sortBy, some e.Name ∈ hdr)
              ↔ (∀ n ∈ ["Status", "Cache name"], some n ∈ hdr)) := by
  have h := (C6_sort_names_pass_through id
    [⟨some "c1", some "available", some "7.1", some "redis", some "cache.t3.micro", []⟩]
    ["Status", "Cache name"] false false (by decide)).1 _ rfl
  exact ⟨by decide, _, rfl, h.2.1, h.2.2⟩

/-- C7 (the code at the failing input): on a cache cluster with zero cache nodes
the endpoint column's `getValue` panics (index out of range), and on a node with
no endpoint it panics (nil dereference); `ListInstances` with `showEndpoint`
then panics as a whole and produces no row for any record, although the same
records list without the endpoint column. -/
theorem C7_endpoint_panics :
    (∃ col, elasticache.lookupColumn (elasticache.availableColumns id) "endpoint" = some col
      ∧ col.getValue ⟨some "c2", some "creating", some "7.1", some "redis",
            some "cache.t3.micro", []⟩
          = .error (Failure.panic "index out of range")
      ∧ col.getValue ⟨some "c3", some "creating", some "7.1", some "redis",
            some "cache.t3.micro", [⟨none⟩]⟩
          = .error (Failure.panic "invalid memory address or nil pointer dereference")
      ∧ col.getValue ⟨some "c4", some "creating", some "7.1", some "redis",
            some "cache.t3.micro", [⟨some ⟨none, some 6379⟩⟩]⟩
          = .error (Failure.panic "invalid memory address or nil pointer dereference"))
    ∧ elasticache.ListInstances id
        (.ok [⟨some "c1", some "available", some "7.1", some "redis", some "cache.t3.micro",
                [⟨some ⟨some "c1.example.com", some 6379⟩⟩]⟩,
              ⟨some "c2", some "creating", some "7.1", some "redis", some "cache.t3.micro", []⟩])
        [] false true
        = .error (Failure.panic "index out of range")
    ∧ (∃ t, elasticache.ListInstances id
        (.ok [⟨some "c1", some "available", some "7.1", some "redis", some "cache.t3.micro",
                [⟨some ⟨some "c1.example.com", some 6379⟩⟩]⟩,
              ⟨some "c2", some "creating", some "7.1", some "redis", some "cache.t3.micro", []⟩])
        [] false false = .ok t
        ∧ t.rows = [[some "c1", some "available", some "7.1 (redis)", some "cache.t3.micro"],
                    [some "c2", some "creating", some "7.1 (redis)", some "cache.t3.micro"]]) := by
  refine ⟨⟨_, rfl, rfl, rfl, rfl⟩, rfl, ⟨_, rfl, rfl⟩⟩

/-- C8 (counterexample): ssm `ListParameters` called with `[name, arn, type]`,
where `arn` is not in `availableColumns`, does not fail: it returns a table whose
header and rows leave that column out. -/
theorem C8_counterexample :
    ssm.lookupColumn ssm.availableColumns "arn" = none
    ∧ ∃ t, ssm.ListParameters id (.ok [⟨some "/app/key", "SecureString"⟩])
          ["name", "arn", "type"] = .ok t
        ∧ t.rowsHeader = [[some "Name", some "Type"]]
        ∧ t.rows = [[some "/app/key", some "SecureString"]] := by
  refine ⟨rfl, _, rfl, rfl, rfl⟩

/-- C8 (amended): a registry lookup miss is skipped, not fatal: for every
`selectedColumns` list passed to ssm `ListParameters`, also one with ids that are
not in `availableColumns`, the operation succeeds and its header and rows are
those of the registered ids of the effective list, in order, the unregistered
ids being left out. -/
theorem C8_lookup_miss_skipped (S : Style → Style) (params : List ssm.ParameterMetadata)
    (sel : List String) :
    ∃ t, ssm.ListParameters S (.ok params) sel = .ok t
      ∧ t.rowsHeader
          = [(ssm.registeredColumns ssm.availableColumns (ssm.effectiveColumns sel)).map
              (fun col => some col.title)]
      ∧ t.rows
          = params.map (fun p =>
              (ssm.registeredColumns ssm.availableColumns (ssm.effectiveColumns sel)).map
                (fun col => some (col.getValue p)))
      ∧ (ssm.registeredColumns ssm.availableColumns (ssm.effectiveColumns sel)).map
            (fun col => col.id)
          = (ssm.effectiveColumns sel).filter
              (fun id => (ssm.lookupColumn ssm.availableColumns id).isSome) :=
  ⟨_, ssm_ListParameters_eq S params sel, rfl, rfl, ssm_registered_ids _ _⟩

end AscGo
